import Mathlib

/-!
Shallow embedding of the camlistore schema layer (`src/pkg/schema/schema.go`)
and proofs about its claims.

Modelling conventions:
* A Go `string` that may carry arbitrary (possibly non-UTF-8) bytes is a
  `List Nat` of byte values; strings used only as identifiers (map keys,
  `camliType` values) are Lean `String`s.
* A Go `map[string]interface{}` is an association list with distinct keys;
  `mapSet` models `m[k] = v` (replace or append) and `mapDel` models
  `delete(m, k)`.
* `blobref.BlobRef` (external package) is opaque here: only its canonical
  string form is relevant, so it is a wrapper around `String`.
* Machine integers: Go `uint64` fields are `Nat`; conversions to `int64` and
  `int64` addition wrap via `Int.bmod (2 ^ 64)`.
* JSON numbers decoded into `interface{}` are Go `float64`; in the mixed
  arrays they are modelled by their truncated integer value (`Int`), which is
  what Go's `byte(num)` conversion consumes.
-/

namespace Camli

/-- Model of `blobref.BlobRef`: only its canonical string form matters here. -/
structure BlobRef where
  str : String
deriving DecidableEq, Repr

/-- The distinct error values produced by the schema layer (`errors.New` /
`fmt.Errorf` values in `schema.go`, named after the spec's taxonomy). -/
inductive SchemaErr where
  | missingVersion
  | conflictingReference
  | sizeMismatch
  | typeMismatch
  | invalidType
  | nilSuperset
  | nilBlobRef
deriving DecidableEq, Repr

/-- Values stored in a serialized part map (`mpart` in `PopulateParts`). -/
inductive PartVal where
  | pstr (s : String)
  | pnat (n : Nat)
deriving DecidableEq, Repr

/-- One `mpart` map built by `PopulateParts`. -/
abbrev PartMap := List (String × PartVal)

/-- A structured RFC3339 timestamp string: the instant's whole seconds since
the Unix epoch as denoted by its date-time digits, the fractional-second
digits (as nanoseconds) when present, and the numeric zone offset in minutes
(`0` for `Z`/UTC). This models the wire string at the level of its semantic
content; Go's `time.Format`/`time.Parse` render and read these fields. -/
structure RFC3339 where
  sec : Int
  frac : Option Nat
  utcOffsetMin : Int
deriving DecidableEq, Repr

/-- Values stored in a camli schema map (`map[string]interface{}`). -/
inductive CamliVal where
  | vint (n : Int)
  | vstr (s : String)
  | vnat (n : Nat)
  | vtime (t : RFC3339)
  | vparts (ps : List PartMap)
deriving DecidableEq, Repr

/-- A Go `map[string]interface{}` as an association list with distinct keys. -/
abbrev CamliMap := List (String × CamliVal)

/-- `_, ok := m[k]` : whether key `k` is present. -/
def hasKey {α : Type} (m : List (String × α)) (k : String) : Bool :=
  m.any (fun kv => kv.1 == k)

/-- `m[k] = v` on a Go map: replace the entry for `k` when present (keys are
unique in a Go map), otherwise append a new one. -/
def mapSet {α : Type} : List (String × α) → String → α → List (String × α)
  | [], k, v => [(k, v)]
  | kv :: m, k, v => if kv.1 == k then (k, v) :: m else kv :: mapSet m k v

/-- `delete(m, k)` on a Go map. -/
def mapDel {α : Type} (m : List (String × α)) (k : String) :
    List (String × α) :=
  m.filter (fun kv => kv.1 != k)

/-- Lexicographic comparison of char lists by code point. On UTF-8 encoded
strings this coincides with Go's byte-wise `sort.Strings` order, since UTF-8
preserves code-point order. -/
def charListLe : List Char → List Char → Bool
  | [], _ => true
  | _ :: _, [] => false
  | a :: as, b :: bs =>
    if a < b then true
    else if b < a then false
    else charListLe as bs

/-- Go's string comparison `a <= b`. -/
def goStrLe (a b : String) : Bool :=
  charListLe a.data b.data

/-- Go's string order as a relation, for sorting keys. -/
def keyLe (a b : String) : Prop :=
  goStrLe a b = true

instance : DecidableRel keyLe :=
  fun a b => inferInstanceAs (Decidable (goStrLe a b = true))

/-- Sort a list of keys lexicographically, as Go's `encoding/json` sorts the
keys of a `map[string]interface{}` when marshalling. -/
def sortKeys (ks : List String) : List String :=
  List.insertionSort keyLe ks

/-- `MapToCamliJSON` (schema.go:396), modelled at the level of the serialized
key order and the final state of the input map. It fails with
`ErrNoCamliVersion` when `camliVersion` is absent (before touching the map);
otherwise the output object starts with the `camliVersion` key followed by the
remaining keys in `encoding/json`'s sorted order, and the map's final state is
unchanged (the code deletes `camliVersion` and re-inserts it after
marshalling). -/
def mapToCamliJSON (m : CamliMap) : Except SchemaErr (List String) × CamliMap :=
  if hasKey m "camliVersion" then
    (Except.ok ("camliVersion" ::
      sortKeys ((m.filter (fun kv => kv.1 != "camliVersion")).map Prod.fst)), m)
  else
    (Except.error SchemaErr.missingVersion, m)

/-- `BytesPart` (schema.go:224): `Size`/`Offset` are `uint64`, the two
references are nilable pointers. -/
structure BytesPart where
  size : Nat
  blobRef : Option BlobRef
  bytesRef : Option BlobRef
  offset : Nat
deriving DecidableEq, Repr

/-- Go's `int64(u)` for a `uint64` value: reinterpret modulo `2 ^ 64` into the
signed range. -/
def int64OfUInt64 (u : Nat) : Int :=
  Int.bmod (u : Int) (2 ^ 64)

/-- One step of `sumSize += int64(part.Size)`: wrapping `int64` addition. -/
def addPartSize (acc : Int) (p : BytesPart) : Int :=
  Int.bmod (acc + int64OfUInt64 p.size) (2 ^ 64)

/-- The `sumSize` accumulator of `PopulateParts` over the whole part list:
`int64` wrap-around sum of the `uint64` sizes. -/
def sumSize (parts : List BytesPart) : Int :=
  parts.foldl addPartSize 0

/-- The `offset` entry of an `mpart`: present only when `part.Offset != 0`. -/
def offsetEntries (p : BytesPart) : PartMap :=
  if p.offset ≠ 0 then [("offset", PartVal.pnat p.offset)] else []

/-- The loop body of `PopulateParts` building one `mpart` map: a part with
both references set is rejected; otherwise the reference entry (if any), the
`size` entry, and the conditional `offset` entry are written. -/
def partToMap (p : BytesPart) : Except SchemaErr PartMap :=
  match p.blobRef, p.bytesRef with
  | some _, some _ => Except.error SchemaErr.conflictingReference
  | some br, none =>
      Except.ok ([("blobRef", PartVal.pstr br.str),
                  ("size", PartVal.pnat p.size)] ++ offsetEntries p)
  | none, some br =>
      Except.ok ([("bytesRef", PartVal.pstr br.str),
                  ("size", PartVal.pnat p.size)] ++ offsetEntries p)
  | none, none =>
      Except.ok ([("size", PartVal.pnat p.size)] ++ offsetEntries p)

/-- The `mparts` slice built by `PopulateParts`'s loop, aborting at the first
part that has both references set. -/
def buildParts : List BytesPart → Except SchemaErr (List PartMap)
  | [] => Except.ok []
  | p :: ps =>
    match partToMap p with
    | Except.error e => Except.error e
    | Except.ok mp =>
      match buildParts ps with
      | Except.error e => Except.error e
      | Except.ok mps => Except.ok (mp :: mps)

/-- `PopulateParts` (schema.go:452): validates the parts, compares the
wrapping `int64` sum of sizes against the declared `size : int64`, and only on
success writes the `parts` key into `m`. Returns the result together with the
final state of `m`. -/
def populateParts (m : CamliMap) (size : Int) (parts : List BytesPart) :
    Except SchemaErr Unit × CamliMap :=
  match buildParts parts with
  | Except.error e => (Except.error e, m)
  | Except.ok mparts =>
    if sumSize parts = size then
      (Except.ok (), mapSet m "parts" (CamliVal.vparts mparts))
    else
      (Except.error SchemaErr.sizeMismatch, m)

/-- An element of a decoded JSON mixed array (`[]interface{}`): a Go string
(as bytes), a JSON number (a `float64`, modelled by its truncated integer
value, which is what `byte(num)` consumes), or any other JSON value. -/
inductive MixedElem where
  | str (s : List Nat)
  | num (x : Int)
  | other
deriving DecidableEq, Repr

/-- Go's `byte(num)` on a `float64` whose truncated value is `x`: the value
modulo `2 ^ 8`. -/
def byteFromNum (x : Int) : Nat :=
  (Int.emod x 256).toNat

/-- `stringFromMixedArray` (schema.go:236): strings append their bytes,
numbers append one byte, anything else is skipped. -/
def stringFromMixedArray : List MixedElem → List Nat
  | [] => []
  | MixedElem.str s :: rest => s ++ stringFromMixedArray rest
  | MixedElem.num x :: rest => byteFromNum x :: stringFromMixedArray rest
  | MixedElem.other :: rest => stringFromMixedArray rest

/-- The fields of `Superset` (schema.go:183) used by the claims. Byte-carrying
Go strings are `List Nat`; zero values are `none` / `""` / `[]`. -/
structure Superset where
  blobRef : Option BlobRef
  type : String
  fileName : List Nat
  fileNameBytes : List MixedElem
  symlinkTarget : List Nat
  symlinkTargetBytes : List MixedElem
deriving DecidableEq, Repr

/-- `Superset.FileNameString` (schema.go:265): the plain field when non-empty
("" is the zero value, i.e. `[]`), otherwise the decoded mixed array. -/
def Superset.fileNameString (ss : Superset) : List Nat :=
  if ss.fileName ≠ [] then ss.fileName
  else stringFromMixedArray ss.fileNameBytes

/-- `Superset.SymlinkTargetString` (schema.go:258). -/
def Superset.symlinkTargetString (ss : Superset) : List Nat :=
  if ss.symlinkTarget ≠ [] then ss.symlinkTarget
  else stringFromMixedArray ss.symlinkTargetBytes

/-- `dirEntry` (schema.go:95): the Superset (a defensive copy) plus the lazily
cached readers. The reader types are parameters: their construction
(`NewFileReader` / `NewDirReader`, in other files of the package) is abstracted
as a capability below. -/
structure DirEntry (FR DR : Type) where
  ss : Superset
  fr : Option FR
  dr : Option DR

/-- `NewDirectoryEntry` (schema.go:151): rejects a nil Superset, a nil
BlobRef, and any `camliType` other than file/directory/symlink; otherwise
builds a `dirEntry` with no cached readers. -/
def newDirectoryEntry {FR DR : Type} (ss? : Option Superset) :
    Except SchemaErr (DirEntry FR DR) :=
  match ss? with
  | none => Except.error SchemaErr.nilSuperset
  | some ss =>
    if ss.blobRef = none then Except.error SchemaErr.nilBlobRef
    else if ss.type = "file" ∨ ss.type = "directory" ∨ ss.type = "symlink" then
      Except.ok ⟨ss, none, none⟩
    else Except.error SchemaErr.invalidType

/-- `dirEntry.File` (schema.go:114): returns the cached reader when present;
otherwise fails with the camliType-mismatch error when the entry is not a
file, and otherwise builds a reader via the `NewFileReader` capability `nfr`
and caches it. Returns the result with the entry's final state. -/
def dirEntryFile {FR DR : Type} (nfr : Option BlobRef → Except SchemaErr FR)
    (de : DirEntry FR DR) : Except SchemaErr FR × DirEntry FR DR :=
  match de.fr with
  | some fr => (Except.ok fr, de)
  | none =>
    if de.ss.type = "file" then
      match nfr de.ss.blobRef with
      | Except.error e => (Except.error e, de)
      | Except.ok fr => (Except.ok fr, { de with fr := some fr })
    else (Except.error SchemaErr.typeMismatch, de)

/-- A Go `time.Time` within the `int64`-nanosecond range, identified by its
instant. Its sub-second component (`nsec`, always in `[0, 1e9)`) is
`unixNano.emod 1e9`. -/
structure GoTime where
  unixNano : Int
deriving DecidableEq, Repr

/-- `RFC3339FromTime` (schema.go:545): formats `t.UTC()` with the RFC3339
layout when `t.UnixNano() % 1e9 == 0` (no fractional part) and with the
RFC3339Nano layout (fractional digits) otherwise. Modelled at the level of
the string's semantic fields. -/
def rfc3339FromTime (t : GoTime) : RFC3339 :=
  if Int.emod t.unixNano 1000000000 = 0 then
    ⟨Int.fdiv t.unixNano 1000000000, none, 0⟩
  else
    ⟨Int.fdiv t.unixNano 1000000000,
     some ((Int.emod t.unixNano 1000000000).toNat), 0⟩

/-- `NanosFromRFC3339` (schema.go:552): parse the string back and return its
`UnixNano`. On the structured model every well-formed string parses. -/
def nanosFromRFC3339 (s : RFC3339) : Int :=
  s.sec * 1000000000 + ((s.frac.getD 0 : Nat) : Int)

/-- `newCamliMap` (schema.go:362). -/
def newCamliMap (version : Int) (ctype : String) : CamliMap :=
  mapSet (mapSet [] "camliVersion" (CamliVal.vint version))
    "camliType" (CamliVal.vstr ctype)

/-- `NewClaim` (schema.go:510); `time.Now()` is passed in as `now`. -/
def newClaim (permaNode : BlobRef) (claimType : String) (now : GoTime) :
    CamliMap :=
  mapSet (mapSet (mapSet (newCamliMap 1 "claim")
      "permaNode" (CamliVal.vstr permaNode.str))
      "claimType" (CamliVal.vstr claimType))
      "claimDate" (CamliVal.vtime (rfc3339FromTime now))

/-- `newAttrChangeClaim` (schema.go:518). -/
def newAttrChangeClaim (permaNode : BlobRef) (claimType attr value : String)
    (now : GoTime) : CamliMap :=
  mapSet (mapSet (newClaim permaNode claimType now)
      "attribute" (CamliVal.vstr attr))
      "value" (CamliVal.vstr value)

/-- `NewDelAttributeClaim` (schema.go:533): an attribute-change claim with the
`value` key deleted again. -/
def newDelAttributeClaim (permaNode : BlobRef) (attr : String) (now : GoTime) :
    CamliMap :=
  mapDel (newAttrChangeClaim permaNode "del-attribute" attr "" now) "value"

/-! Concrete inputs used to instantiate the claims. -/

/-- A claim-shaped map: its `attribute` key sorts before `camliType`. -/
def exClaimMap : CamliMap :=
  [("camliVersion", CamliVal.vint 1), ("attribute", CamliVal.vstr "tag"),
   ("camliType", CamliVal.vstr "claim")]

/-- A file-shaped map whose other keys all sort after `camliType`. -/
def exFileMap : CamliMap :=
  [("camliVersion", CamliVal.vint 1), ("camliType", CamliVal.vstr "file"),
   ("fileName", CamliVal.vstr "x")]

/-- A part of declared size `2^63` with no references. -/
def exBigPart : BytesPart :=
  ⟨2 ^ 63, none, none, 0⟩

/-- A part with a size but neither reference. -/
def exBarePart : BytesPart :=
  ⟨5, none, none, 0⟩

/-- A sample blob reference. -/
def exRef : BlobRef :=
  ⟨"sha1-0000000000000000000000000000000000000000"⟩

/-- A part with both references set and a size that cannot match. -/
def exConflictPart : BytesPart :=
  ⟨5, some exRef, some exRef, 0⟩

/-- A valid part list: a blob-referencing part with an offset, then a bare
part; sizes sum to 7. -/
def exGoodParts : List BytesPart :=
  [⟨3, some exRef, none, 2⟩, ⟨4, none, none, 0⟩]

/-- A Superset with an empty `FileName` and `FileNameBytes = ["H", "i"]`. -/
def exSupersetHi : Superset :=
  ⟨none, "", [], [MixedElem.str [72], MixedElem.str [105]], [], []⟩

/-- The same Superset with `FileName = "X"` also set. -/
def exSupersetX : Superset :=
  ⟨none, "", [88], [MixedElem.str [72], MixedElem.str [105]], [], []⟩

/-- A Superset of camliType `audio` with a blob reference. -/
def exSupersetAudio : Superset :=
  ⟨some exRef, "audio", [], [], [], []⟩

/-- A Superset of camliType `file` with a nil blob reference. -/
def exSupersetFileNoRef : Superset :=
  ⟨none, "file", [], [], [], []⟩

/-- A directory-typed entry with nothing cached. -/
def exDirEntry : DirEntry Nat Unit :=
  ⟨⟨some exRef, "directory", [], [], [], []⟩, none, none⟩

/-- A file-typed entry with nothing cached. -/
def exFileEntry : DirEntry Nat Unit :=
  ⟨⟨some exRef, "file", [], [], [], []⟩, none, none⟩

/-- A `NewFileReader` capability that always succeeds with reader `7`. -/
def exNewFileReader : Option BlobRef → Except SchemaErr Nat :=
  fun _ => Except.ok 7

/-! Order properties of the key comparison. -/

theorem charListLe_refl : ∀ as : List Char, charListLe as as = true
  | [] => rfl
  | a :: as => by
    simp [charListLe, lt_irrefl]
    exact charListLe_refl as

theorem charListLe_total : ∀ as bs : List Char,
    charListLe as bs = true ∨ charListLe bs as = true
  | [], _ => Or.inl rfl
  | _ :: _, [] => Or.inr rfl
  | a :: as, b :: bs => by
    rcases lt_trichotomy a b with h | h | h
    · left; simp [charListLe, h]
    · subst h
      rcases charListLe_total as bs with ih | ih
      · left; simp [charListLe, lt_irrefl, ih]
      · right; simp [charListLe, lt_irrefl, ih]
    · right; simp [charListLe, h]

theorem charListLe_trans : ∀ as bs cs : List Char,
    charListLe as bs = true → charListLe bs cs = true → charListLe as cs = true
  | [], _, _, _, _ => rfl
  | _ :: _, [], _, h1, _ => by simp [charListLe] at h1
  | _ :: _, _ :: _, [], _, h2 => by simp [charListLe] at h2
  | a :: as, b :: bs, c :: cs, h1, h2 => by
    rcases lt_trichotomy a b with hab | hab | hab
    · rcases lt_trichotomy b c with hbc | hbc | hbc
      · simp [charListLe, lt_trans hab hbc]
      · subst hbc; simp [charListLe, hab]
      · simp [charListLe, asymm hbc, hbc] at h2
    · subst hab
      simp [charListLe, lt_irrefl] at h1
      rcases lt_trichotomy a c with hac | hac | hac
      · simp [charListLe, hac]
      · subst hac
        simp [charListLe, lt_irrefl] at h2 ⊢
        exact charListLe_trans as bs cs h1 h2
      · simp [charListLe, asymm hac, hac] at h2
    · simp [charListLe, asymm hab, hab] at h1

theorem charListLe_antisymm : ∀ as bs : List Char,
    charListLe as bs = true → charListLe bs as = true → as = bs
  | [], [], _, _ => rfl
  | [], _ :: _, _, h2 => by simp [charListLe] at h2
  | _ :: _, [], h1, _ => by simp [charListLe] at h1
  | a :: as, b :: bs, h1, h2 => by
    rcases lt_trichotomy a b with hab | hab | hab
    · simp [charListLe, asymm hab, hab] at h2
    · subst hab
      simp [charListLe, lt_irrefl] at h1 h2
      rw [charListLe_antisymm as bs h1 h2]
    · simp [charListLe, asymm hab, hab] at h1

theorem keyLe_total (a b : String) : keyLe a b ∨ keyLe b a :=
  charListLe_total a.data b.data

theorem keyLe_trans {a b c : String} (h1 : keyLe a b) (h2 : keyLe b c) :
    keyLe a c :=
  charListLe_trans a.data b.data c.data h1 h2

theorem keyLe_antisymm {a b : String} (h1 : keyLe a b) (h2 : keyLe b a) :
    a = b :=
  String.ext (charListLe_antisymm a.data b.data h1 h2)

/-- If `x` occurs in `l` and is a lower bound of `l`, it is the head of the
sorted output. -/
theorem sortKeys_eq_cons_of_min {l : List String} {x : String} (hx : x ∈ l)
    (hmin : ∀ y ∈ l, keyLe x y) : ∃ rest, sortKeys l = x :: rest := by
  haveI : IsTotal String keyLe := ⟨keyLe_total⟩
  haveI : IsTrans String keyLe := ⟨fun _ _ _ => keyLe_trans⟩
  have hperm := List.perm_insertionSort keyLe l
  have hsorted := List.sorted_insertionSort keyLe l
  have hx' : x ∈ List.insertionSort keyLe l := hperm.mem_iff.mpr hx
  cases hs : List.insertionSort keyLe l with
  | nil => rw [hs] at hx'; cases hx'
  | cons h rest =>
    rw [hs] at hx' hsorted
    have hh : h ∈ l := hperm.mem_iff.mp (hs ▸ List.mem_cons_self h rest)
    rcases List.mem_cons.mp hx' with hx1 | hx2
    · exact ⟨rest, by rw [sortKeys, hs, hx1]⟩
    · have h1 : keyLe h x := (List.sorted_cons.mp hsorted).1 x hx2
      have h2 : x = h := keyLe_antisymm (hmin h hh) h1
      exact ⟨rest, by rw [sortKeys, hs, h2]⟩

/-- Looking up a key just set by `mapSet` yields the new value. -/
theorem lookup_mapSet_self {α : Type} (m : List (String × α)) (k : String)
    (v : α) : List.lookup k (mapSet m k v) = some v := by
  induction m with
  | nil => simp [mapSet, List.lookup]
  | cons kv m ih =>
    by_cases hkv : kv.1 = k
    · simp [mapSet, hkv, List.lookup]
    · have hk2 : (k == kv.1) = false := beq_eq_false_iff_ne.mpr (Ne.symm hkv)
      simp [mapSet, hkv, List.lookup, hk2, ih]

/-! The claims. -/

/-- C4: `FileNameString` (and symmetrically `SymlinkTargetString`) returns the
plain string field whenever it is non-empty and otherwise the byte sequence
reassembled from the mixed array, where a string element contributes its bytes
and a numeric element contributes a single byte; in particular
`FileName=""`, `FileNameBytes=["H","i"]` yields `"Hi"`, and with
`FileName="X"` also set the result is `"X"`. -/
theorem fileNameString_spec (ss : Superset) (s : List Nat) (x : Int)
    (rest : List MixedElem) :
    (ss.fileName ≠ [] → ss.fileNameString = ss.fileName) ∧
    (ss.fileName = [] →
      ss.fileNameString = stringFromMixedArray ss.fileNameBytes) ∧
    (ss.symlinkTarget ≠ [] → ss.symlinkTargetString = ss.symlinkTarget) ∧
    (ss.symlinkTarget = [] →
      ss.symlinkTargetString = stringFromMixedArray ss.symlinkTargetBytes) ∧
    stringFromMixedArray (MixedElem.str s :: rest) =
      s ++ stringFromMixedArray rest ∧
    stringFromMixedArray (MixedElem.num x :: rest) =
      byteFromNum x :: stringFromMixedArray rest ∧
    exSupersetHi.fileNameString = [72, 105] ∧
    exSupersetX.fileNameString = [88] := by
  refine ⟨?_, ?_, ?_, ?_, rfl, rfl, by decide, by decide⟩ <;>
    intro h <;>
    simp [Superset.fileNameString, Superset.symlinkTargetString, h]

/-- C4 witness: the two concrete decodings, via the theorem. -/
theorem fileNameString_spec_witness :
    Superset.fileNameString exSupersetX = [88] ∧
    Superset.fileNameString exSupersetHi =
      stringFromMixedArray exSupersetHi.fileNameBytes :=
  ⟨(fileNameString_spec exSupersetX [] 0 []).1 (by decide),
   (fileNameString_spec exSupersetHi [] 0 []).2.1 (by decide)⟩

/-- C10: the mixed-array decoder is total — an element that is neither a
string nor a number contributes nothing, a numeric element contributes exactly
one byte equal to its value modulo 256 (and in particular a byte below 256). -/
theorem stringFromMixedArray_total (l : List MixedElem) (x : Int) :
    stringFromMixedArray (MixedElem.other :: l) = stringFromMixedArray l ∧
    stringFromMixedArray (MixedElem.num x :: l) =
      (Int.emod x 256).toNat :: stringFromMixedArray l ∧
    (Int.emod x 256).toNat < 256 := by
  refine ⟨rfl, rfl, ?_⟩
  have h1 : Int.emod x 256 < 256 := Int.emod_lt_of_pos x (by norm_num)
  have h2 : 0 ≤ Int.emod x 256 := Int.emod_nonneg x (by norm_num)
  omega

/-- C8: the formatted timestamp is in UTC, carries a fractional part exactly
when the instant has a non-zero sub-second component, and parsing it back
recovers `t.UnixNano()`. -/
theorem rfc3339_roundTrip (t : GoTime) :
    (rfc3339FromTime t).utcOffsetMin = 0 ∧
    ((rfc3339FromTime t).frac ≠ none ↔
      Int.emod t.unixNano 1000000000 ≠ 0) ∧
    nanosFromRFC3339 (rfc3339FromTime t) = t.unixNano := by
  have hb : (0 : Int) ≤ 1000000000 := by norm_num
  have hm : Int.emod t.unixNano 1000000000 = t.unixNano % 1000000000 := rfl
  by_cases h : Int.emod t.unixNano 1000000000 = 0
  · refine ⟨by simp [rfc3339FromTime, h], by simp [rfc3339FromTime, h], ?_⟩
    simp only [rfc3339FromTime, h, if_true, nanosFromRFC3339]
    rw [Int.fdiv_eq_ediv t.unixNano hb]
    simp only [Option.getD_none]
    rw [hm] at h
    omega
  · refine ⟨by simp [rfc3339FromTime, h], by simp [rfc3339FromTime, h], ?_⟩
    simp only [rfc3339FromTime, h, if_false, nanosFromRFC3339]
    rw [Int.fdiv_eq_ediv t.unixNano hb]
    simp only [Option.getD_some]
    have h2 : 0 ≤ Int.emod t.unixNano 1000000000 :=
      Int.emod_nonneg t.unixNano (by norm_num)
    rw [Int.toNat_of_nonneg h2, hm]
    omega

/-- C9: a del-attribute claim has claimType `del-attribute` and the given
attribute, and carries no `value` key at all. -/
theorem newDelAttributeClaim_spec (pn : BlobRef) (attr : String)
    (now : GoTime) :
    List.lookup "claimType" (newDelAttributeClaim pn attr now) =
      some (CamliVal.vstr "del-attribute") ∧
    List.lookup "attribute" (newDelAttributeClaim pn attr now) =
      some (CamliVal.vstr attr) ∧
    hasKey (newDelAttributeClaim pn attr now) "value" = false :=
  ⟨rfl, rfl, rfl⟩

/-- C5: `MapToCamliJSON` fails with the missing-version error exactly when the
map has no `camliVersion` key, and in that failure case the map is left
unmodified. -/
theorem mapToCamliJSON_missingVersion (m : CamliMap) :
    ((mapToCamliJSON m).1 = Except.error SchemaErr.missingVersion ↔
      hasKey m "camliVersion" = false) ∧
    (hasKey m "camliVersion" = false → (mapToCamliJSON m).2 = m) := by
  by_cases h : hasKey m "camliVersion" <;> simp [mapToCamliJSON, h]

/-- C5 witness: the empty map has no version key, fails, and is unchanged. -/
theorem mapToCamliJSON_missingVersion_witness :
    (mapToCamliJSON []).1 = Except.error SchemaErr.missingVersion ∧
    (mapToCamliJSON []).2 = ([] : CamliMap) :=
  ⟨(mapToCamliJSON_missingVersion []).1.mpr rfl,
   (mapToCamliJSON_missingVersion []).2 rfl⟩

/-- C6: `NewDirectoryEntry` errors exactly when the Superset is nil, its
BlobRef is nil, or its camliType is not file/directory/symlink, and in the
bad-type case the error is the invalid-type error. -/
theorem newDirectoryEntry_spec {FR DR : Type} (ss? : Option Superset) :
    ((∃ e, @newDirectoryEntry FR DR ss? = Except.error e) ↔
      ss? = none ∨ ∃ ss, ss? = some ss ∧ (ss.blobRef = none ∨
        (ss.type ≠ "file" ∧ ss.type ≠ "directory" ∧ ss.type ≠ "symlink"))) ∧
    (∀ ss, ss? = some ss → ss.blobRef ≠ none → ss.type ≠ "file" →
      ss.type ≠ "directory" → ss.type ≠ "symlink" →
      @newDirectoryEntry FR DR ss? = Except.error SchemaErr.invalidType) := by
  constructor
  · cases ss? with
    | none => simp [newDirectoryEntry]
    | some ss =>
      by_cases hb : ss.blobRef = none
      · simp [newDirectoryEntry, hb]
      · by_cases ht : ss.type = "file" ∨ ss.type = "directory" ∨
            ss.type = "symlink"
        · simp [newDirectoryEntry, hb, ht]
          tauto
        · simp [newDirectoryEntry, hb, ht]
          tauto
  · intro ss heq hb hf hd hs
    subst heq
    simp [newDirectoryEntry, hb, hf, hd, hs]

/-- C6 witness: camliType `audio` fails with the invalid-type error, and a
`file` Superset with a nil BlobRef fails. -/
theorem newDirectoryEntry_spec_witness :
    @newDirectoryEntry Unit Unit (some exSupersetAudio) =
      Except.error SchemaErr.invalidType ∧
    (∃ e, @newDirectoryEntry Unit Unit (some exSupersetFileNoRef) =
      Except.error e) :=
  ⟨(newDirectoryEntry_spec (some exSupersetAudio)).2 exSupersetAudio rfl
      (by decide) (by decide) (by decide) (by decide),
   (newDirectoryEntry_spec (some exSupersetFileNoRef)).1.mpr
      (Or.inr ⟨exSupersetFileNoRef, rfl, Or.inl rfl⟩)⟩

/-- C7: calling `File()` on a non-file entry (no reader cached yet) fails with
the type-mismatch error and leaves the entry unchanged; on success the reader
is cached and a repeated call returns the same cached reader with no further
state change. -/
theorem dirEntryFile_spec {FR DR : Type}
    (nfr : Option BlobRef → Except SchemaErr FR) (de : DirEntry FR DR) :
    (de.fr = none → de.ss.type ≠ "file" →
      dirEntryFile nfr de = (Except.error SchemaErr.typeMismatch, de)) ∧
    (∀ r, (dirEntryFile nfr de).1 = Except.ok r →
      (dirEntryFile nfr de).2.fr = some r ∧
      dirEntryFile nfr (dirEntryFile nfr de).2 =
        (Except.ok r, (dirEntryFile nfr de).2)) := by
  obtain ⟨ss, fr, dr⟩ := de
  cases fr with
  | some fr =>
    constructor
    · intro h; simp at h
    · intro r h
      simp [dirEntryFile] at h ⊢
      simp [h]
  | none =>
    constructor
    · intro _ hty
      simp [dirEntryFile, hty]
    · intro r h
      by_cases hty : ss.type = "file"
      · cases hnfr : nfr ss.blobRef with
        | error e =>
          simp [dirEntryFile, hty, hnfr] at h
        | ok fr =>
          simp [dirEntryFile, hty, hnfr] at h ⊢
          simp [h]
      · simp [dirEntryFile, hty] at h

/-- C7 witness: a directory-typed entry fails with the type-mismatch error
unchanged; a file-typed entry caches the reader built by the capability. -/
theorem dirEntryFile_spec_witness :
    dirEntryFile exNewFileReader exDirEntry =
      (Except.error SchemaErr.typeMismatch, exDirEntry) ∧
    (dirEntryFile exNewFileReader exFileEntry).2.fr = some 7 :=
  ⟨(dirEntryFile_spec exNewFileReader exDirEntry).1 rfl (by decide),
   ((dirEntryFile_spec exNewFileReader exFileEntry).2 7 rfl).1⟩

/-- C1 counterexample: a serialized map whose second key is `attribute`, not
`camliType`: the remaining keys follow `camliVersion` in sorted order. -/
theorem mapToCamliJSON_secondKey_counterexample :
    (mapToCamliJSON exClaimMap).1 =
      Except.ok ["camliVersion", "attribute", "camliType"] ∧
    ("attribute" : String) ≠ "camliType" := by
  constructor
  · rfl
  · decide

/-- C1 (amended): the first serialized key is always `camliVersion`, and the
second is `camliType` whenever `camliType` is present and no other key of the
map sorts before it in Go's string order. -/
theorem mapToCamliJSON_keyOrder (m : CamliMap)
    (hv : hasKey m "camliVersion" = true)
    (hct : hasKey m "camliType" = true)
    (hmin : ∀ kv ∈ m, kv.1 ≠ "camliVersion" → keyLe "camliType" kv.1) :
    ∃ rest, (mapToCamliJSON m).1 =
      Except.ok ("camliVersion" :: "camliType" :: rest) := by
  have hx : "camliType" ∈
      (m.filter (fun kv => kv.1 != "camliVersion")).map Prod.fst := by
    have hev : ∃ v, ("camliType", v) ∈ m := by simpa [hasKey] using hct
    rcases hev with ⟨v, hkv⟩
    exact List.mem_map.mpr
      ⟨("camliType", v), List.mem_filter.mpr ⟨hkv, rfl⟩, rfl⟩
  have hmin' : ∀ y ∈
      (m.filter (fun kv => kv.1 != "camliVersion")).map Prod.fst,
      keyLe "camliType" y := by
    intro y hy
    rcases List.mem_map.mp hy with ⟨kv, hkv, rfl⟩
    rcases List.mem_filter.mp hkv with ⟨hm, hne⟩
    exact hmin kv hm (by simpa using hne)
  rcases sortKeys_eq_cons_of_min hx hmin' with ⟨rest, hr⟩
  exact ⟨rest, by simp [mapToCamliJSON, hv, hr]⟩

/-- C1 witness: on a file map whose other keys sort after `camliType`, the
first two serialized keys are `camliVersion`, `camliType`. -/
theorem mapToCamliJSON_keyOrder_witness :
    ∃ rest, (mapToCamliJSON exFileMap).1 =
      Except.ok ("camliVersion" :: "camliType" :: rest) :=
  mapToCamliJSON_keyOrder exFileMap (by decide) (by decide) (by decide)

/-- The only error `partToMap` can produce is the conflicting-reference
error. -/
theorem partToMap_error (p : BytesPart) (e : SchemaErr)
    (h : partToMap p = Except.error e) :
    e = SchemaErr.conflictingReference := by
  cases hb : p.blobRef <;> cases hy : p.bytesRef <;>
    simp [partToMap, hb, hy] at h
  all_goals first | exact h | exact h.symm

/-- A part without both references serializes successfully. -/
theorem partToMap_ok (p : BytesPart)
    (h : p.blobRef = none ∨ p.bytesRef = none) :
    ∃ mp, partToMap p = Except.ok mp := by
  unfold partToMap
  cases hb : p.blobRef with
  | none =>
    cases hy : p.bytesRef with
    | none => exact ⟨_, rfl⟩
    | some yr => exact ⟨_, rfl⟩
  | some br =>
    cases hy : p.bytesRef with
    | none => exact ⟨_, rfl⟩
    | some yr =>
      rcases h with h | h
      · rw [hb] at h; cases h
      · rw [hy] at h; cases h

/-- The entries of a successfully serialized part: its size, each reference
key exactly when the reference is set (never both), and the offset key exactly
when the offset is non-zero. -/
theorem partToMap_ok_spec (p : BytesPart) (mp : PartMap)
    (h : partToMap p = Except.ok mp) :
    List.lookup "size" mp = some (PartVal.pnat p.size) ∧
    (hasKey mp "blobRef" = true ↔ p.blobRef ≠ none) ∧
    (hasKey mp "bytesRef" = true ↔ p.bytesRef ≠ none) ∧
    ¬(p.blobRef ≠ none ∧ p.bytesRef ≠ none) ∧
    (hasKey mp "offset" = true ↔ p.offset ≠ 0) := by
  cases hb : p.blobRef with
  | none =>
    cases hy : p.bytesRef with
    | none =>
      simp [partToMap, hb, hy] at h
      subst h
      by_cases ho : p.offset = 0 <;>
        simp [offsetEntries, ho, hasKey, List.lookup, hb, hy]
    | some yr =>
      simp [partToMap, hb, hy] at h
      subst h
      by_cases ho : p.offset = 0 <;>
        simp [offsetEntries, ho, hasKey, List.lookup, hb, hy]
  | some br =>
    cases hy : p.bytesRef with
    | none =>
      simp [partToMap, hb, hy] at h
      subst h
      by_cases ho : p.offset = 0 <;>
        simp [offsetEntries, ho, hasKey, List.lookup, hb, hy]
    | some yr =>
      simp [partToMap, hb, hy] at h

/-- A part list containing a doubly-referenced part fails with the
conflicting-reference error. -/
theorem buildParts_conflict : ∀ parts : List BytesPart,
    (∃ p ∈ parts, p.blobRef ≠ none ∧ p.bytesRef ≠ none) →
    buildParts parts = Except.error SchemaErr.conflictingReference
  | [], h => by simp at h
  | p :: ps, h => by
    rcases h with ⟨q, hq, hb, hy⟩
    rcases List.mem_cons.mp hq with rfl | hq'
    · rcases Option.ne_none_iff_exists'.mp hb with ⟨br, hbr⟩
      rcases Option.ne_none_iff_exists'.mp hy with ⟨yr, hyr⟩
      simp [buildParts, partToMap, hbr, hyr]
    · cases hpm : partToMap p with
      | error e =>
        have he := partToMap_error p e hpm
        subst he
        simp [buildParts, hpm]
      | ok mp =>
        have ih := buildParts_conflict ps ⟨q, hq', hb, hy⟩
        simp [buildParts, hpm, ih]

/-- A part list with no doubly-referenced part serializes successfully. -/
theorem buildParts_ok_of_noconflict : ∀ parts : List BytesPart,
    (∀ p ∈ parts, p.blobRef = none ∨ p.bytesRef = none) →
    ∃ mps, buildParts parts = Except.ok mps
  | [], _ => ⟨[], rfl⟩
  | p :: ps, h => by
    rcases partToMap_ok p (h p (List.mem_cons_self p ps)) with ⟨mp, hmp⟩
    rcases buildParts_ok_of_noconflict ps
        (fun q hq => h q (List.mem_cons_of_mem p hq)) with ⟨mps, hmps⟩
    exact ⟨mp :: mps, by simp [buildParts, hmp, hmps]⟩

/-- Entry-wise properties of a successfully built parts slice. -/
theorem buildParts_forall : ∀ (parts : List BytesPart) (mps : List PartMap),
    buildParts parts = Except.ok mps →
    List.Forall₂ (fun p mp =>
      List.lookup "size" mp = some (PartVal.pnat p.size) ∧
      (hasKey mp "blobRef" = true ↔ p.blobRef ≠ none) ∧
      (hasKey mp "bytesRef" = true ↔ p.bytesRef ≠ none) ∧
      ¬(p.blobRef ≠ none ∧ p.bytesRef ≠ none) ∧
      (hasKey mp "offset" = true ↔ p.offset ≠ 0)) parts mps
  | [], mps, h => by
    simp [buildParts] at h
    subst h
    exact List.Forall₂.nil
  | p :: ps, mps, h => by
    cases hpm : partToMap p with
    | error e => simp [buildParts, hpm] at h
    | ok mp =>
      cases hbp : buildParts ps with
      | error e => simp [buildParts, hpm, hbp] at h
      | ok mps' =>
        simp [buildParts, hpm, hbp] at h
        subst h
        exact List.Forall₂.cons (partToMap_ok_spec p mp hpm)
          (buildParts_forall ps mps' hbp)

/-- C2 counterexample: the `int64` sum of part sizes wraps, so a declared size
of 0 with two parts of size `2^63` each passes the size check and succeeds,
although the mathematical sum of the part sizes is not 0. -/
theorem populateParts_overflow_counterexample :
    (populateParts [] 0 [exBigPart, exBigPart]).1 = Except.ok () ∧
    (exBigPart.size : Int) + (exBigPart.size : Int) ≠ (0 : Int) := by
  constructor
  · rfl
  · decide

/-- C2 (amended): a part with both references set makes `PopulateParts` fail
with the conflicting-reference error (regardless of sizes); when no part
conflicts and the wrapping `int64` sum of sizes differs from the declared
size, it fails with the size-mismatch error; and on any failure the map is
left unmodified. -/
theorem populateParts_validation (m : CamliMap) (size : Int)
    (parts : List BytesPart) :
    ((∃ p ∈ parts, p.blobRef ≠ none ∧ p.bytesRef ≠ none) →
      (populateParts m size parts).1 =
        Except.error SchemaErr.conflictingReference) ∧
    ((∀ p ∈ parts, p.blobRef = none ∨ p.bytesRef = none) →
      sumSize parts ≠ size →
      (populateParts m size parts).1 = Except.error SchemaErr.sizeMismatch) ∧
    (∀ e, (populateParts m size parts).1 = Except.error e →
      (populateParts m size parts).2 = m) := by
  refine ⟨?_, ?_, ?_⟩
  · intro h
    simp [populateParts, buildParts_conflict parts h]
  · intro h hs
    rcases buildParts_ok_of_noconflict parts h with ⟨mps, hbp⟩
    simp [populateParts, hbp, hs]
  · intro e
    cases hbp : buildParts parts with
    | error e' => simp [populateParts, hbp]
    | ok mps =>
      by_cases hs : sumSize parts = size <;>
        simp [populateParts, hbp, hs]

/-- C2 witness: a conflicting part fails with the conflicting-reference
error; a bare part of size 5 against a declared size of 10 fails with the
size-mismatch error and leaves the map unmodified. -/
theorem populateParts_validation_witness :
    (populateParts [] 10 [exConflictPart]).1 =
      Except.error SchemaErr.conflictingReference ∧
    (populateParts [] 10 [exBarePart]).1 =
      Except.error SchemaErr.sizeMismatch ∧
    (populateParts [] 10 [exBarePart]).2 = ([] : CamliMap) := by
  have h1 := (populateParts_validation [] 10 [exConflictPart]).1
    ⟨exConflictPart, by decide, by decide, by decide⟩
  have h2 := (populateParts_validation [] 10 [exBarePart]).2.1
    (by decide) (by decide)
  have h3 := (populateParts_validation [] 10 [exBarePart]).2.2
    SchemaErr.sizeMismatch h2
  exact ⟨h1, h2, h3⟩

/-- C3 counterexample: a part with neither reference is accepted and its
serialized map contains no `blobRef` and no `bytesRef` key, so the output does
not always hold exactly one of the two. -/
theorem populateParts_noRef_counterexample :
    populateParts [] 5 [exBarePart] =
      (Except.ok (),
        [("parts", CamliVal.vparts [[("size", PartVal.pnat 5)]])]) ∧
    hasKey [("size", PartVal.pnat 5)] "blobRef" = false ∧
    hasKey [("size", PartVal.pnat 5)] "bytesRef" = false :=
  ⟨rfl, rfl, rfl⟩

/-- C3 (amended): when `PopulateParts` succeeds, the map's `parts` array has,
for each input part, a `size` entry, a `blobRef` entry exactly when its
BlobRef is set, a `bytesRef` entry exactly when its BytesRef is set (never
both), and an `offset` entry exactly when its Offset is non-zero. -/
theorem populateParts_partEntries (m : CamliMap) (size : Int)
    (parts : List BytesPart) (res : CamliMap)
    (h : populateParts m size parts = (Except.ok (), res)) :
    ∃ mps, List.lookup "parts" res = some (CamliVal.vparts mps) ∧
      List.Forall₂ (fun p mp =>
        List.lookup "size" mp = some (PartVal.pnat p.size) ∧
        (hasKey mp "blobRef" = true ↔ p.blobRef ≠ none) ∧
        (hasKey mp "bytesRef" = true ↔ p.bytesRef ≠ none) ∧
        ¬(p.blobRef ≠ none ∧ p.bytesRef ≠ none) ∧
        (hasKey mp "offset" = true ↔ p.offset ≠ 0)) parts mps := by
  cases hbp : buildParts parts with
  | error e => simp [populateParts, hbp] at h
  | ok mps =>
    by_cases hs : sumSize parts = size
    · simp [populateParts, hbp, hs] at h
      refine ⟨mps, ?_, buildParts_forall parts mps hbp⟩
      rw [← h]
      exact lookup_mapSet_self m "parts" (CamliVal.vparts mps)
    · simp [populateParts, hbp, hs] at h

/-- C3 witness: the two-part list with summed size 7 serializes with the
stated entries. -/
theorem populateParts_partEntries_witness :
    ∃ mps, List.lookup "parts"
        [("parts", CamliVal.vparts
          [[("blobRef", PartVal.pstr exRef.str), ("size", PartVal.pnat 3),
            ("offset", PartVal.pnat 2)],
           [("size", PartVal.pnat 4)]])] =
      some (CamliVal.vparts mps) ∧
      List.Forall₂ (fun p mp =>
        List.lookup "size" mp = some (PartVal.pnat p.size) ∧
        (hasKey mp "blobRef" = true ↔ p.blobRef ≠ none) ∧
        (hasKey mp "bytesRef" = true ↔ p.bytesRef ≠ none) ∧
        ¬(p.blobRef ≠ none ∧ p.bytesRef ≠ none) ∧
        (hasKey mp "offset" = true ↔ p.offset ≠ 0)) exGoodParts mps :=
  populateParts_partEntries [] 7 exGoodParts
    [("parts", CamliVal.vparts
      [[("blobRef", PartVal.pstr exRef.str), ("size", PartVal.pnat 3),
        ("offset", PartVal.pnat 2)],
       [("size", PartVal.pnat 4)]])] rfl

end Camli
